import Mathlib

/-!
Verification development for the `sqlc-dynamic-query-example` repository.

The repository's core consists of
  * a statement parser (`builder/parse.go`: `Parse`, `stripComments`,
    `unquote`, `SelectBuilderFromStmt`) that recovers a table name and a
    column list from a canonical `SELECT ... FROM ...` statement, and
  * two query-interceptor variants (`selector` with an expected-query guard
    and `selecter` which overrides unconditionally) wrapping a `DBTX`
    database handle, plus
  * tutorial glue (`ListUsers` / `FindUser`) composing a dynamically refined
    select builder with the generated data-access layer.

Strings are modelled as `List Char` (Go strings; all relevant scanning in
the source is per character, and the characters the code inspects are
ASCII, so byte-level indexing in the source coincides with this model).
All definitions are executable and structurally recursive so concrete runs
of the code can be established by `decide`.
-/

deriving instance DecidableEq for Except

/-- The three quote characters inspected by the Go code:
single quote (39), double quote (34), backtick (96). -/
def sqC : Char := Char.ofNat 39

/-- Double-quote character. -/
def dqC : Char := Char.ofNat 34

/-- Backtick character. -/
def btC : Char := Char.ofNat 96

/-- Character class of Go's regexp `\s` (RE2 Perl class): tab, newline,
form feed, carriage return, space.  Note this does not contain the
vertical tab `\x0b`. -/
def reWs (c : Char) : Bool :=
  c == ' ' || c == '\t' || c == '\n' || c == '\x0c' || c == '\x0d'

/-- Go's `unicode.IsSpace`: the Unicode White_Space property, used by
`strings.TrimSpace`.  Strictly larger than `reWs` (it also holds of the
vertical tab, NEL, NBSP and the higher Unicode space code points). -/
def goIsSpace (c : Char) : Bool :=
  c == ' ' || c == '\t' || c == '\n' || c == '\x0b' || c == '\x0c' ||
  c == '\x0d' || c.toNat == 0x85 || c.toNat == 0xA0 ||
  c.toNat == 0x1680 || (0x2000 ≤ c.toNat && c.toNat ≤ 0x200A) ||
  c.toNat == 0x2028 || c.toNat == 0x2029 || c.toNat == 0x202F ||
  c.toNat == 0x205F || c.toNat == 0x3000

/-- `strings.TrimSpace`, left side: drop leading Unicode space. -/
def trimLeft (l : List Char) : List Char := l.dropWhile goIsSpace

/-- `strings.TrimSpace`, right side: drop trailing Unicode space. -/
def trimRight (l : List Char) : List Char :=
  (l.reverse.dropWhile goIsSpace).reverse

/-- `strings.TrimSpace`. -/
def trimSpace (l : List Char) : List Char := trimRight (trimLeft l)

/-- `strings.TrimSuffix(table, ";")`: remove one trailing semicolon. -/
def trimSuffixSemi (l : List Char) : List Char :=
  if l.getLast? = some ';' then l.dropLast else l

/-! ## stripComments (`builder/parse.go`)

The block-comment pass is `regexp.MustCompile("/\\*.*?\\*/").ReplaceAllString`.
In Go's regexp, `.` does not match a newline (the pattern sets no `s` flag),
so a match runs from a `/*` to the first following `*/` with no newline in
between; `ReplaceAllString` scans left to right and resumes after each
removed match. -/

/-- Scan for the first closing `*/` with no intervening newline; return the
number of characters consumed through the close. -/
def findCloseN : List Char → Option Nat
  | '*' :: '/' :: _ => some 2
  | '\n' :: _ => none
  | _ :: rest => (findCloseN rest).map (· + 1)
  | [] => none

/-- One fuel-indexed step list of the block-comment removal scan.  Fuel is
consumed one unit per character position examined, so `l.length` fuel
always suffices (see `stripBlock`). -/
def stripBlockF : Nat → List Char → List Char
  | 0, l => l
  | _ + 1, [] => []
  | fuel + 1, '/' :: '*' :: rest =>
    match findCloseN rest with
    | some n => stripBlockF fuel (rest.drop n)
    | none => '/' :: stripBlockF fuel ('*' :: rest)
  | fuel + 1, c :: rest => c :: stripBlockF fuel rest

/-- `reMultiLine.ReplaceAllString(stmt, "")`: remove every `/* ... */`
segment that does not span a newline. -/
def stripBlock (l : List Char) : List Char := stripBlockF l.length l

/-- The scan of one line for a `--` comment marker outside single-quote,
double-quote and backtick quoting, mirroring the character loop in
`stripComments`.  Go iterates `i` up to `len(line)-2` inclusive (each step
looks at `line[i]` and `line[i+1]`), so a final lone character is never a
marker start.  Returns the index of the first marker found. -/
def findDashDash : List Char → Bool → Bool → Bool → Option Nat
  | c :: c2 :: rest, sqF, dqF, btF =>
    if c == sqC && !dqF && !btF then
      (findDashDash (c2 :: rest) (!sqF) dqF btF).map (· + 1)
    else if c == dqC && !sqF && !btF then
      (findDashDash (c2 :: rest) sqF (!dqF) btF).map (· + 1)
    else if c == btC && !sqF && !dqF then
      (findDashDash (c2 :: rest) sqF dqF (!btF)).map (· + 1)
    else if c == '-' && c2 == '-' && !sqF && !dqF && !btF then
      some 0
    else
      (findDashDash (c2 :: rest) sqF dqF btF).map (· + 1)
  | _, _, _, _ => none

/-- Truncate one line at its `--` comment marker, if any. -/
def stripLineOne (line : List Char) : List Char :=
  match findDashDash line false false false with
  | some i => line.take i
  | none => line

/-- The line-comment pass of `stripComments`: split on newlines, truncate
each line at an unquoted `--`, and rejoin with newlines. -/
def stripLineComments (l : List Char) : List Char :=
  List.intercalate ['\n'] ((l.splitOn '\n').map stripLineOne)

/-- `stripComments`: block-comment pass, then line-comment pass. -/
def stripComments (l : List Char) : List Char :=
  stripLineComments (stripBlock l)

/-! ## The match against `(?is)^\s*select\s+(.*?)\s+from\s+([^\s;]+)`

`FindStringSubmatch` with this anchored pattern.  Go regexp implements
leftmost-first (Perl-priority) semantics: the leading greedy `\s*` must end
exactly at the maximal whitespace run (no whitespace character can begin
`select`), the first `\s+` backtracks from its maximal run downward, the
lazy `(.*?)` grows from the empty capture upward, and the `\s+from\s+`
suffix of the pattern is forced (whitespace cannot begin `from`), with
`([^\s;]+)` taking the maximal nonempty run of non-whitespace
non-semicolon characters. -/

/-- Case-insensitive character match for the literal letters of `select`
and `from` under RE2 Unicode case folding (the letter `s` additionally
folds with long s, U+017F). -/
def charCI (p c : Char) : Bool :=
  c == p ||
  (97 ≤ p.toNat && p.toNat ≤ 122 && c.toNat == p.toNat - 32) ||
  (p.toNat == 115 && c.toNat == 0x17F)

/-- Consume a literal pattern case-insensitively; return the rest. -/
def matchCI : List Char → List Char → Option (List Char)
  | [], l => some l
  | _ :: _, [] => none
  | p :: ps, c :: cs => if charCI p c then matchCI ps cs else none

/-- Length of the maximal `\s` run at the head. -/
def wsRun (l : List Char) : Nat := (l.takeWhile reWs).length

/-- Character class `[^\s;]` of the table-name capture group. -/
def isTableChar (c : Char) : Bool := !reWs c && !(c == ';')

/-- Match `\s+from\s+([^\s;]+)` at the start of `l`, returning the capture
of the table group.  As the pattern continues with the literal `from`,
whose first letter is not whitespace, both `\s+` are forced to their
maximal runs. -/
def tailMatch (l : List Char) : Option (List Char) :=
  if wsRun l = 0 then none
  else
    match matchCI ('f' :: 'r' :: 'o' :: 'm' :: []) (l.drop (wsRun l)) with
    | none => none
    | some l2 =>
      if wsRun l2 = 0 then none
      else if (l2.drop (wsRun l2)).takeWhile isTableChar = [] then none
      else some ((l2.drop (wsRun l2)).takeWhile isTableChar)

/-- Grow the lazy capture `(.*?)` from the empty string upward until the
forced tail pattern matches the remainder; `acc` holds the capture so far,
reversed.  Returns (column-list capture, table capture). -/
def scanA : List Char → List Char → Option (List Char × List Char)
  | [], acc =>
    match tailMatch [] with
    | some b => some (acc.reverse, b)
    | none => none
  | c :: rest, acc =>
    match tailMatch (c :: rest) with
    | some b => some (acc.reverse, b)
    | none => scanA rest (c :: acc)

/-- Backtrack the first `\s+` from `w` down to one character consumed,
running the lazy-capture scan for each width. -/
def tryW (l : List Char) : Nat → Option (List Char × List Char)
  | 0 => none
  | w + 1 =>
    match scanA (l.drop (w + 1)) [] with
    | some r => some r
    | none => tryW l w

/-- `FindStringSubmatch` of the full pattern: returns
(column-list capture, table capture) when the statement matches. -/
def findSelect (l : List Char) : Option (List Char × List Char) :=
  match matchCI ('s' :: 'e' :: 'l' :: 'e' :: 'c' :: 't' :: []) (l.drop (wsRun l)) with
  | none => none
  | some l2 => tryW l2 (wsRun l2)

/-! ## Parse (`builder/parse.go`) -/

/-- Predicate of the byte comparisons in `unquote`: first and last
character form a matching backtick, double-quote or single-quote pair. -/
def isQuotePair (a b : Char) : Bool :=
  (a == btC && b == btC) || (a == dqC && b == dqC) || (a == sqC && b == sqC)

/-- Whether the token is wrapped in a matching quote pair. -/
def wrappedPair (u : List Char) : Bool :=
  match u.head?, u.getLast? with
  | some a, some b => isQuotePair a b
  | _, _ => false

/-- `unquote`: strip exactly one layer of a matching enclosing quote pair
from a token of length at least two; otherwise return it unchanged. -/
def unquote (col : List Char) : List Char :=
  if 2 ≤ col.length && wrappedPair col then (col.drop 1).dropLast else col

/-- The per-token body of the column loop in `Parse`: trim whitespace,
unquote, and drop the token when the result is empty. -/
def processTok (tok : List Char) : Option (List Char) :=
  if unquote (trimSpace tok) = [] then none else some (unquote (trimSpace tok))

/-- `Parse`: strip comments, match the select pattern; on a match, split
the column capture on commas and process each token, and trim the table
capture (whitespace, then one trailing semicolon).  On no match, return an
empty table and no columns. -/
def Parse (stmt : List Char) : List Char × List (List Char) :=
  match findSelect (stripComments stmt) with
  | none => ([], [])
  | some (a, b) =>
    (trimSuffixSemi (trimSpace b), (a.splitOn ',').filterMap processTok)

/-! ## Dynamic statement skeleton (squirrel `SelectBuilder`)

Modelled from the spec: the dynamic-statement-builder capability is an
external dependency whose source is not part of this repository; per the
spec it supports `select(columns...)`, `from(table)`, `where(predicate)`,
`order-by(expr)`, `limit(n)`, and a render operation producing
(statement-text, ordered argument list) or an error, with value semantics
(each refinement returns a new skeleton), rendering failing exactly when
the skeleton does not resolve to valid executable SQL (non-empty table,
non-empty column list). -/

/-- Argument values passed through the `interface{}` argument lists. -/
inductive Arg where
  | int (n : Int)
  | txt (s : List Char)
  | null
deriving DecidableEq, Repr

/-- Modelled from the spec: predicates attachable via `where`.  `eqVal`
renders as `col = ?` contributing one argument; `eqNull` renders as
`col IS NULL` with no argument. -/
inductive SqlPred where
  | eqVal (col : List Char) (v : Arg)
  | eqNull (col : List Char)
  | geVal (col : List Char) (v : Arg)
deriving DecidableEq, Repr

/-- Modelled from the spec: the dynamic statement skeleton, a builder value
closing over table, columns, predicates, ordering and limit. -/
structure SB where
  columns : List (List Char)
  table : List Char
  wheres : List SqlPred
  orderBys : List (List Char)
  limitN : Option Nat
deriving DecidableEq, Repr

/-- `where(predicate)`: append a predicate, returning a new skeleton. -/
def SB.whereP (sb : SB) (p : SqlPred) : SB := { sb with wheres := sb.wheres ++ [p] }

/-- `order-by(expr)`: append an ordering expression. -/
def SB.orderBy (sb : SB) (e : List Char) : SB :=
  { sb with orderBys := sb.orderBys ++ [e] }

/-- `limit(n)`: set the row cap. -/
def SB.limit (sb : SB) (n : Nat) : SB := { sb with limitN := some n }

/-- Render error reported by the builder. -/
inductive RenderErr where
  | invalidSkeleton
deriving DecidableEq, Repr

/-- Rendered text of one predicate. -/
def SqlPred.render : SqlPred → List Char
  | .eqVal col _ => col ++ " = ?".toList
  | .eqNull col => col ++ " IS NULL".toList
  | .geVal col _ => col ++ " >= ?".toList

/-- Arguments contributed by one predicate. -/
def SqlPred.args : SqlPred → List Arg
  | .eqVal _ v => [v]
  | .eqNull _ => []
  | .geVal _ v => [v]

/-- Statement text of a renderable skeleton. -/
def SB.sqlText (sb : SB) : List Char :=
  "SELECT ".toList ++ List.intercalate ", ".toList sb.columns ++
  " FROM ".toList ++ sb.table ++
  (if sb.wheres = [] then []
   else " WHERE ".toList ++ List.intercalate " AND ".toList (sb.wheres.map SqlPred.render)) ++
  (if sb.orderBys = [] then []
   else " ORDER BY ".toList ++ List.intercalate ", ".toList sb.orderBys) ++
  (match sb.limitN with
   | some n => " LIMIT ".toList ++ (Nat.repr n).toList
   | none => [])

/-- Ordered argument list of a renderable skeleton. -/
def SB.sqlArgs (sb : SB) : List Arg := (sb.wheres.map SqlPred.args).flatten

/-- Modelled from the spec: `ToSql`, the render operation.  It fails
exactly when the skeleton is invalid (empty column list or empty table —
cf. the spec's invariant that a finalized skeleton must resolve to a
non-empty table and non-empty column list, and its render-failure example
of an unset table). -/
def SB.toSql (sb : SB) : Except RenderErr (List Char × List Arg) :=
  if sb.columns = [] || sb.table = [] then .error .invalidSkeleton
  else .ok (sb.sqlText, sb.sqlArgs)

/-- `SelectBuilderFromStmt`: parse the canonical statement and seed a
skeleton with the recovered columns and table
(`sq.Select(columns...).From(table)`). -/
def SelectBuilderFromStmt (stmt : List Char) : SB :=
  let (table, columns) := Parse stmt
  { columns := columns, table := table, wheres := [], orderBys := [],
    limitN := none }

/-! ## Query interceptors (`builder/parse.go` `selector` / `selecter`,
`builder/db.go`)

The wrapped handle and its driver are external; what the interceptor
decides is (a) whether a call reaches the wrapped handle and, if so, with
which statement text and argument list, or (b) whether it instead returns
an error to the caller, or panics (`MustSql`).  `Outcome` records exactly
that observable decision. -/

/-- Observable outcome of one interceptor primitive call. -/
inductive Outcome where
  | delegated (query : List Char) (args : List Arg)
  | failed (e : RenderErr)
  | panicked
deriving DecidableEq, Repr

/-- The guarded interceptor: wrapped handle elided, keeping the
`expectedQuery` guard and the bound skeleton. -/
structure selector where
  expectedQuery : List Char
  sb : SB
deriving DecidableEq, Repr

/-- `SelectForQuery` (`builder/db.go`): wrap with a guard; an empty guard
means every query call is overridden. -/
def SelectForQuery (expectedQuery : List Char) (sb : SB) : selector :=
  { expectedQuery := expectedQuery, sb := sb }

/-- `Select` (`builder/db.go`): backwards-compatible wrapper overriding
all query calls (empty guard). -/
def Select (sb : SB) : selector := SelectForQuery [] sb

/-- `selector.PrepareContext`: always pass the original statement through
(prepared statements are not intercepted; prepare carries no args). -/
def selector.PrepareContext (_r : selector) (query : List Char) : Outcome :=
  .delegated query []

/-- `selector.ExecContext`: always pass through unchanged. -/
def selector.ExecContext (_r : selector) (query : List Char)
    (args : List Arg) : Outcome :=
  .delegated query args

/-- `selector.QueryContext`: pass through when a non-empty guard differs
from the incoming statement; otherwise render the skeleton, returning the
render error on failure, and delegate the rendered statement and args. -/
def selector.QueryContext (r : selector) (query : List Char)
    (args : List Arg) : Outcome :=
  if r.expectedQuery ≠ [] ∧ query ≠ r.expectedQuery then .delegated query args
  else
    match r.sb.toSql with
    | .error e => .failed e
    | .ok (oq, oa) => .delegated oq oa

/-- `selector.QueryRowContext`: as `QueryContext`, except a render failure
cannot be reported through this primitive's return shape, so the call
falls back to the wrapped handle with the original statement and args. -/
def selector.QueryRowContext (r : selector) (query : List Char)
    (args : List Arg) : Outcome :=
  if r.expectedQuery ≠ [] ∧ query ≠ r.expectedQuery then .delegated query args
  else
    match r.sb.toSql with
    | .error _ => .delegated query args
    | .ok (oq, oa) => .delegated oq oa

/-- The unconditional interceptor (`selecter`): wrapped handle elided,
keeping the bound skeleton. -/
structure selecter where
  sb : SB
deriving DecidableEq, Repr

/-- `MustSql` outcome plumbing: `MustSql` panics when `ToSql` errors. -/
def selecter.PrepareContext (r : selecter) (_query : List Char) : Outcome :=
  match r.sb.toSql with
  | .error _ => .panicked
  | .ok (oq, _) => .delegated oq []

/-- `selecter.ExecContext`: override statement and args via `MustSql`. -/
def selecter.ExecContext (r : selecter) (_query : List Char)
    (_args : List Arg) : Outcome :=
  match r.sb.toSql with
  | .error _ => .panicked
  | .ok (oq, oa) => .delegated oq oa

/-- `selecter.QueryContext`: override statement and args via `MustSql`. -/
def selecter.QueryContext (r : selecter) (_query : List Char)
    (_args : List Arg) : Outcome :=
  match r.sb.toSql with
  | .error _ => .panicked
  | .ok (oq, oa) => .delegated oq oa

/-- `selecter.QueryRowContext`: override statement and args via
`MustSql`. -/
def selecter.QueryRowContext (r : selecter) (_query : List Char)
    (_args : List Arg) : Outcome :=
  match r.sb.toSql with
  | .error _ => .panicked
  | .ok (oq, oa) => .delegated oq oa

/-- The skeleton built in the interceptor test:
`sq.Select("*").From("users").Where(sq.Eq{"id": 10})`. -/
def usersSb : SB :=
  { columns := ["*".toList], table := "users".toList,
    wheres := [SqlPred.eqVal "id".toList (Arg.int 10)], orderBys := [],
    limitN := none }

/-! ## Tutorial glue (`tutorial` package)

The generated sqlc layer (model structs, canonical statement constants and
decode routines) is not among the repository sources; it is modelled from
the spec at its interface boundary: a canonical statement text per logical
query, and a decode routine that runs a query through a handle and yields
typed rows or an error. -/

/-- Modelled from the spec: the generated `listUsers` canonical statement
constant (the text the repository's parser tests exercise as the sqlc
generated `ListUsers` query). -/
def listUsersStmt : List Char :=
  "-- name: ListUsers :many\nSELECT id, name, email, age, created_at, updated_at FROM users\n".toList

/-- Modelled from the spec: a typed row of the `users` table (fields as in
the schema; only the zero value matters to the claims). -/
structure User where
  id : Int
  name : List Char
  email : List Char
  age : Int
deriving DecidableEq, Repr

/-- The Go zero value `User{}`. -/
def User.zero : User := { id := 0, name := [], email := [], age := 0 }

/-- Database-layer errors surfaced to tutorial callers; `noRows` is the
distinguished `sql.ErrNoRows`. -/
inductive DbErr where
  | noRows
  | other (n : Nat)
deriving DecidableEq, Repr

/-- The shared package-level base skeleton `listUsersBuilder`:
`SelectBuilderFromStmt(listUsers).Where(sq.Eq{"deleted_at": nil}).Limit(500)`. -/
def listUsersBuilder : SB :=
  ((SelectBuilderFromStmt listUsersStmt).whereP
    (SqlPred.eqNull "deleted_at".toList)).limit 500

/-- Apply an optional customization function, as the tutorial entry points
do (`if fn != nil { sb = fn(sb) }`). -/
def applyFn (fn : Option (SB → SB)) (sb : SB) : SB :=
  match fn with
  | some f => f sb
  | none => sb

/-- The package-level state of the tutorial package visible to a call:
the shared base skeleton variable. -/
structure TutorialState where
  listUsersBuilder : SB
deriving DecidableEq

/-- The initial (process-initialization) tutorial state. -/
def initTutorialState : TutorialState := { listUsersBuilder := listUsersBuilder }

/-- `ListUsers`, as a transformer of the package-level state: it reads the
shared base skeleton, refines a local copy via the customization function,
and never writes the shared variable; it returns the (unchanged) state and
the skeleton bound to the interceptor for this call. -/
def ListUsersStateful (st : TutorialState) (fn : Option (SB → SB)) :
    TutorialState × SB :=
  let sb := st.listUsersBuilder
  let sb := applyFn fn sb
  (st, sb)

/-- `ListUsers`, result-level: run the refined skeleton through the
generated decode routine `db` (abstracting `builder.Select`, `New(db)` and
`q.ListUsers(ctx)`), yielding rows or an error. -/
def ListUsers (db : SB → Except DbErr (List User))
    (fn : Option (SB → SB)) : Except DbErr (List User) :=
  db (applyFn fn listUsersBuilder)

/-- `FindUser`: compose `ListUsers` with an extra `Limit(1)` on top of the
caller's customization; an error propagates, an empty row list becomes
`(User{}, sql.ErrNoRows)`, and otherwise the first row is returned. -/
def FindUser (db : SB → Except DbErr (List User))
    (fn : Option (SB → SB)) : User × Option DbErr :=
  match ListUsers db (some fun sb => (applyFn fn sb).limit 1) with
  | .error e => (User.zero, some e)
  | .ok [] => (User.zero, some DbErr.noRows)
  | .ok (u :: _) => (u, none)

/-! ## Helper lemmas -/

/-- Every element of a `takeWhile` satisfies the predicate. -/
theorem mem_takeWhile_pred {p : Char → Bool} :
    ∀ {l : List Char} {a : Char}, a ∈ l.takeWhile p → p a = true := by
  intro l
  induction l with
  | nil => intro a h; simp at h
  | cons c rest ih =>
    intro a h
    rw [List.takeWhile_cons] at h
    by_cases hc : p c = true
    · rw [if_pos hc] at h
      rcases List.mem_cons.mp h with h | h
      · exact h ▸ hc
      · exact ih h
    · rw [if_neg hc] at h
      simp at h

/-- Elements of a `dropWhile` come from the original list. -/
theorem mem_dropWhile_mem {p : Char → Bool} :
    ∀ {l : List Char} {a : Char}, a ∈ l.dropWhile p → a ∈ l := by
  intro l
  induction l with
  | nil => intro a h; simp at h
  | cons c rest ih =>
    intro a h
    rw [List.dropWhile_cons] at h
    by_cases hc : p c = true
    · rw [if_pos hc] at h
      exact List.mem_cons_of_mem _ (ih h)
    · rw [if_neg hc] at h
      exact h

/-- Elements of a `dropLast` come from the original list. -/
theorem mem_dropLast_mem :
    ∀ {l : List Char} {a : Char}, a ∈ l.dropLast → a ∈ l := by
  intro l
  induction l with
  | nil => intro a h; simp at h
  | cons c rest ih =>
    intro a h
    cases rest with
    | nil => simp at h
    | cons d rest2 =>
      rw [List.dropLast_cons₂] at h
      rcases List.mem_cons.mp h with h | h
      · exact h ▸ List.mem_cons_self _ _
      · exact List.mem_cons_of_mem _ (ih h)

/-- Elements of the trimmed string come from the original string. -/
theorem mem_trimSpace_mem {l : List Char} {a : Char}
    (h : a ∈ trimSpace l) : a ∈ l := by
  unfold trimSpace trimRight trimLeft at h
  exact mem_dropWhile_mem (List.mem_reverse.mp (mem_dropWhile_mem (List.mem_reverse.mp h)))

/-- Elements survive `trimSuffixSemi`. -/
theorem mem_trimSuffixSemi_mem {l : List Char} {a : Char}
    (h : a ∈ trimSuffixSemi l) : a ∈ l := by
  unfold trimSuffixSemi at h
  split at h
  · exact mem_dropLast_mem h
  · exact h

/-- The table capture of `tailMatch` consists of `[^\s;]` characters. -/
theorem tailMatch_chars {l b : List Char} (h : tailMatch l = some b) :
    ∀ c ∈ b, isTableChar c = true := by
  unfold tailMatch at h
  split at h
  · simp at h
  · split at h
    · simp at h
    · split at h
      · simp at h
      · split at h
        · simp at h
        · cases h
          intro c hc
          exact mem_takeWhile_pred hc

/-- The table capture of the lazy scan consists of `[^\s;]` characters. -/
theorem scanA_chars :
    ∀ (l acc : List Char) {a b : List Char}, scanA l acc = some (a, b) →
      ∀ c ∈ b, isTableChar c = true := by
  intro l
  induction l with
  | nil =>
    intro acc a b h
    unfold scanA at h
    rw [show tailMatch [] = none from by decide] at h
    simp at h
  | cons hd tl ih =>
    intro acc a b h
    unfold scanA at h
    cases htm : tailMatch (hd :: tl) with
    | some b2 =>
      rw [htm] at h
      simp only [Option.some.injEq, Prod.mk.injEq] at h
      obtain ⟨-, rfl⟩ := h
      exact tailMatch_chars htm
    | none =>
      rw [htm] at h
      exact ih _ h

/-- The table capture of the backtracking width search consists of
`[^\s;]` characters. -/
theorem tryW_chars (l : List Char) :
    ∀ (w : Nat) {a b : List Char}, tryW l w = some (a, b) →
      ∀ c ∈ b, isTableChar c = true := by
  intro w
  induction w with
  | zero => intro a b h; simp [tryW] at h
  | succ w ih =>
    intro a b h
    unfold tryW at h
    cases hs : scanA (l.drop (w + 1)) [] with
    | some r =>
      obtain ⟨ra, rb⟩ := r
      rw [hs] at h
      simp only [Option.some.injEq, Prod.mk.injEq] at h
      obtain ⟨-, rfl⟩ := h
      exact scanA_chars _ _ hs
    | none =>
      rw [hs] at h
      exact ih h

/-- The table capture of the full pattern match consists of `[^\s;]`
characters. -/
theorem findSelect_chars {l a b : List Char}
    (h : findSelect l = some (a, b)) : ∀ c ∈ b, isTableChar c = true := by
  unfold findSelect at h
  cases hm : matchCI ('s' :: 'e' :: 'l' :: 'e' :: 'c' :: 't' :: []) (l.drop (wsRun l)) with
  | none => rw [hm] at h; simp at h
  | some l2 => rw [hm] at h; exact tryW_chars _ _ h

/-! ## Claim theorems -/

/-- C1 (code evaluated at the failing input): for the well-formed canonical
statement `SELECT a, /* c ... d */ b FROM t` whose block comment spans a
line break, `stripComments` leaves the comment in place (the Go pattern
`/\*.*?\*/` is compiled without the `s` flag, so `.` never matches the
newline, although the function's own documentation says it removes all SQL
comments, including multi-line `/* comment */` ones), and `Parse` therefore
returns the comment text inside the column list instead of
`columns = [a, b]`. -/
theorem c1_multiline_block_comment_eval :
    stripComments "SELECT a, /* c\nd */ b FROM t".toList =
      "SELECT a, /* c\nd */ b FROM t".toList ∧
    Parse "SELECT a, /* c\nd */ b FROM t".toList =
      ("t".toList, ["a".toList, "/* c\nd */ b".toList]) ∧
    Parse "SELECT a, /* c */ b FROM t".toList =
      ("t".toList, ["a".toList, "b".toList]) := by decide

/-- C2: for every guarded interceptor and every query / query-single-row
call, a call whose statement differs from a non-empty guard is delegated
with the original statement and the original argument list unchanged; a
call with an empty guard or a statement equal to the guard is delegated
with the skeleton's rendered statement text and rendered argument list
(provided the skeleton renders, the case C3 covers failure of). -/
theorem c2_guarded_interception (g : List Char) (sb : SB) (q : List Char)
    (args : List Arg) :
    (g ≠ [] → q ≠ g →
      (SelectForQuery g sb).QueryContext q args = .delegated q args ∧
      (SelectForQuery g sb).QueryRowContext q args = .delegated q args) ∧
    (∀ s a, sb.toSql = .ok (s, a) → (g = [] ∨ q = g) →
      (SelectForQuery g sb).QueryContext q args = .delegated s a ∧
      (SelectForQuery g sb).QueryRowContext q args = .delegated s a) := by
  constructor
  · intro hg hq
    unfold SelectForQuery selector.QueryContext selector.QueryRowContext
    rw [if_pos ⟨hg, hq⟩, if_pos ⟨hg, hq⟩]
    exact ⟨rfl, rfl⟩
  · intro s a hok hor
    have hcond : ¬ ((g : List Char) ≠ [] ∧ q ≠ g) := by
      rcases hor with h | h
      · exact fun hc => hc.1 h
      · exact fun hc => hc.2 h
    unfold SelectForQuery selector.QueryContext selector.QueryRowContext
    rw [if_neg hcond, if_neg hcond, hok]
    exact ⟨rfl, rfl⟩

/-- C2 witness: the guard `"expected"` with a `"other"` call passes the
original statement and `[1,2,3]` through; the matching call is replaced by
the rendered statement of the `users` skeleton. -/
theorem c2_guarded_interception_witness :
    (SelectForQuery "expected".toList usersSb).QueryContext "other".toList
        [Arg.int 1, Arg.int 2, Arg.int 3] =
      .delegated "other".toList [Arg.int 1, Arg.int 2, Arg.int 3] ∧
    (SelectForQuery "expected".toList usersSb).QueryRowContext
        "expected".toList [] =
      .delegated usersSb.sqlText usersSb.sqlArgs :=
  ⟨((c2_guarded_interception "expected".toList usersSb "other".toList
      [Arg.int 1, Arg.int 2, Arg.int 3]).1 (by decide) (by decide)).1,
   ((c2_guarded_interception "expected".toList usersSb "expected".toList
      []).2 usersSb.sqlText usersSb.sqlArgs rfl (Or.inr rfl)).2⟩

/-- C3: when the skeleton fails to render and the call reaches the
interception branch (guard empty or statement equal to the guard), a query
call returns the rendering error to its caller, while a query-single-row
call delegates to the wrapped handle with the original statement and
arguments, swallowing the error. -/
theorem c3_render_failure_asymmetry (g q : List Char) (args : List Arg)
    (sb : SB) (e : RenderErr) (he : sb.toSql = .error e)
    (hg : g = [] ∨ q = g) :
    (SelectForQuery g sb).QueryContext q args = .failed e ∧
    (SelectForQuery g sb).QueryRowContext q args = .delegated q args := by
  have hcond : ¬ ((g : List Char) ≠ [] ∧ q ≠ g) := by
    rcases hg with h | h
    · exact fun hc => hc.1 h
    · exact fun hc => hc.2 h
  unfold SelectForQuery selector.QueryContext selector.QueryRowContext
  rw [if_neg hcond, if_neg hcond, he]
  exact ⟨rfl, rfl⟩

/-- C3 witness: the skeleton parsed from a non-select statement fails to
render; a query call reports the error and a query-single-row call falls
back to the original statement and argument. -/
theorem c3_render_failure_asymmetry_witness :
    (SelectForQuery [] (SelectBuilderFromStmt "update table set a=1".toList)).QueryContext
        "q".toList [Arg.int 1] = .failed RenderErr.invalidSkeleton ∧
    (SelectForQuery [] (SelectBuilderFromStmt "update table set a=1".toList)).QueryRowContext
        "q".toList [Arg.int 1] = .delegated "q".toList [Arg.int 1] :=
  c3_render_failure_asymmetry [] "q".toList [Arg.int 1]
    (SelectBuilderFromStmt "update table set a=1".toList)
    RenderErr.invalidSkeleton (by decide) (Or.inl rfl)

/-- C4 counterexample: with the skeleton built from the failed parse of
`update table set a=1` (empty table, no columns), the dependent
query-single-row call does not fail fast: it delegates the original
statement and arguments to the wrapped handle, returning no error, even
though parsing failed at initialization. -/
theorem c4_counterexample :
    Parse "update table set a=1".toList = ([], []) ∧
    (Select (SelectBuilderFromStmt "update table set a=1".toList)).QueryRowContext
        "SELECT 1".toList [Arg.int 7] =
      .delegated "SELECT 1".toList [Arg.int 7] := by decide

/-- C4 (amended): if parsing of the canonical statement failed at
initialization, the skeleton fails to render, and a query call fails fast
— the guarded variant returns the render error, and every call of the
unconditional variant (query, exec, query-single-row, prepare) panics —
with nothing reaching the wrapped handle; but a guarded-variant
query-single-row call that reaches the interception branch delegates the
original statement and arguments to the wrapped handle instead of
erroring. -/
theorem c4_amended_fail_fast (stmt g q : List Char) (args : List Arg)
    (h : Parse stmt = ([], [])) :
    (SelectBuilderFromStmt stmt).toSql = .error RenderErr.invalidSkeleton ∧
    ((g = [] ∨ q = g) →
      (SelectForQuery g (SelectBuilderFromStmt stmt)).QueryContext q args =
        .failed RenderErr.invalidSkeleton) ∧
    selecter.QueryContext ⟨SelectBuilderFromStmt stmt⟩ q args = .panicked ∧
    selecter.ExecContext ⟨SelectBuilderFromStmt stmt⟩ q args = .panicked ∧
    selecter.QueryRowContext ⟨SelectBuilderFromStmt stmt⟩ q args = .panicked ∧
    selecter.PrepareContext ⟨SelectBuilderFromStmt stmt⟩ q = .panicked ∧
    ((g = [] ∨ q = g) →
      (SelectForQuery g (SelectBuilderFromStmt stmt)).QueryRowContext q args =
        .delegated q args) := by
  have hsb : SelectBuilderFromStmt stmt =
      { columns := [], table := [], wheres := [], orderBys := [],
        limitN := none } := by
    unfold SelectBuilderFromStmt
    rw [h]
  have hts : (SelectBuilderFromStmt stmt).toSql = .error RenderErr.invalidSkeleton := by
    rw [hsb]; rfl
  refine ⟨hts, fun hor => ?_, ?_, ?_, ?_, ?_, fun hor => ?_⟩
  · have hcond : ¬ ((g : List Char) ≠ [] ∧ q ≠ g) := by
      rcases hor with h2 | h2
      · exact fun hc => hc.1 h2
      · exact fun hc => hc.2 h2
    unfold SelectForQuery selector.QueryContext
    rw [if_neg hcond, hts]
  · unfold selecter.QueryContext; rw [hts]
  · unfold selecter.ExecContext; rw [hts]
  · unfold selecter.QueryRowContext; rw [hts]
  · unfold selecter.PrepareContext; rw [hts]
  · have hcond : ¬ ((g : List Char) ≠ [] ∧ q ≠ g) := by
      rcases hor with h2 | h2
      · exact fun hc => hc.1 h2
      · exact fun hc => hc.2 h2
    unfold SelectForQuery selector.QueryRowContext
    rw [if_neg hcond, hts]

/-- C4 (amended) witness at the non-select canonical statement, empty
guard, a concrete statement and one argument. -/
theorem c4_amended_fail_fast_witness :
    (SelectForQuery [] (SelectBuilderFromStmt "update table set a=1".toList)).QueryContext
        "SELECT 1".toList [Arg.int 7] = .failed RenderErr.invalidSkeleton ∧
    selecter.QueryContext ⟨SelectBuilderFromStmt "update table set a=1".toList⟩
        "SELECT 1".toList [Arg.int 7] = .panicked :=
  ⟨(c4_amended_fail_fast "update table set a=1".toList [] "SELECT 1".toList
      [Arg.int 7] (by decide)).2.1 (Or.inl rfl),
   (c4_amended_fail_fast "update table set a=1".toList [] "SELECT 1".toList
      [Arg.int 7] (by decide)).2.2.1⟩

/-- C5: whenever the comment-stripped statement does not match the
`SELECT ... FROM ...` pattern, `Parse` returns an empty table name and an
empty column list (a soft failure; `Parse` is total and reports no
error). -/
theorem c5_nonmatch_soft_failure (s : List Char)
    (h : findSelect (stripComments s) = none) : Parse s = ([], []) := by
  unfold Parse
  rw [h]

/-- C5 witness: the statement `update table set a=1` does not match, and
`Parse` returns empty metadata on it. -/
theorem c5_nonmatch_soft_failure_witness :
    Parse "update table set a=1".toList = ([], []) :=
  c5_nonmatch_soft_failure "update table set a=1".toList (by decide)

/-- C6: in the guarded variant every exec call is passed through to the
wrapped handle unchanged regardless of guard match, while in the
unconditional-interception variant an exec call is overridden by the
skeleton's rendered statement and arguments. -/
theorem c6_exec_policy (g q : List Char) (args : List Arg) (sb : SB) :
    (SelectForQuery g sb).ExecContext q args = .delegated q args ∧
    (∀ s a, sb.toSql = .ok (s, a) →
      selecter.ExecContext ⟨sb⟩ q args = .delegated s a) := by
  refine ⟨rfl, fun s a hok => ?_⟩
  unfold selecter.ExecContext
  rw [hok]

/-- C6 witness: a guarded exec call with guard `"expected"` passes
through; an unconditional exec call on the `users` skeleton is replaced by
its rendered form. -/
theorem c6_exec_policy_witness :
    (SelectForQuery "expected".toList usersSb).ExecContext "other".toList
        [Arg.int 1] = .delegated "other".toList [Arg.int 1] ∧
    selecter.ExecContext ⟨usersSb⟩ "other".toList [Arg.int 1] =
      .delegated usersSb.sqlText usersSb.sqlArgs :=
  ⟨(c6_exec_policy "expected".toList "other".toList [Arg.int 1] usersSb).1,
   (c6_exec_policy "expected".toList "other".toList [Arg.int 1] usersSb).2
      usersSb.sqlText usersSb.sqlArgs rfl⟩

/-- C7 counterexample: in `select '', a from t` the captured column-list
region contains the token `''`, which is wrapped in a matching pair of
single quotes; the claim says `Parse` returns it with one layer of quotes
stripped (the empty string), but `Parse` omits it from the returned column
list entirely. -/
theorem c7_counterexample :
    Parse "select '', a from t".toList = ("t".toList, ["a".toList]) ∧
    [] ∉ (Parse "select '', a from t".toList).2 := by decide

/-- C7 (amended): for every column token of the captured column-list
region: after trimming whitespace, a token wrapped in a matching pair of
backticks, double quotes or single quotes has exactly one layer of
enclosing quotes stripped, and any other token is kept as its trimmed
self; tokens that are empty after this processing are omitted from the
returned column list, and `Parse` produces its columns by exactly this
processing of the comma-split region. -/
theorem c7_amended_quote_strip (tok : List Char) :
    (2 ≤ (trimSpace tok).length ∧ wrappedPair (trimSpace tok) = true →
      processTok tok =
        if ((trimSpace tok).drop 1).dropLast = [] then none
        else some (((trimSpace tok).drop 1).dropLast)) ∧
    (¬ (2 ≤ (trimSpace tok).length ∧ wrappedPair (trimSpace tok) = true) →
      processTok tok =
        if trimSpace tok = [] then none else some (trimSpace tok)) ∧
    (∀ s a b, findSelect (stripComments s) = some (a, b) →
      (Parse s).2 = (a.splitOn ',').filterMap processTok) := by
  refine ⟨fun hw => ?_, fun hw => ?_, fun s a b h => ?_⟩
  · have hb : (2 ≤ (trimSpace tok).length && wrappedPair (trimSpace tok)) = true := by
      simp [hw.1, hw.2]
    unfold processTok unquote
    rw [hb]
    simp
  · have hb : (2 ≤ (trimSpace tok).length && wrappedPair (trimSpace tok)) = false := by
      rcases not_and_or.mp hw with h2 | h2
      · simp [h2]
      · simp [Bool.not_eq_true .. ▸ h2]
    unfold processTok unquote
    rw [hb]
    simp
  · unfold Parse
    rw [h]

/-- C7 (amended) witness: the backtick-quoted token is unquoted, the plain
token is kept, and the whitespace-only token is omitted. -/
theorem c7_amended_quote_strip_witness :
    processTok (btC :: 'a' :: btC :: []) = some ('a' :: []) ∧
    processTok (' ' :: 'a' :: 'b' :: []) = some ('a' :: 'b' :: []) ∧
    processTok (' ' :: ' ' :: []) = none :=
  ⟨by rw [(c7_amended_quote_strip (btC :: 'a' :: btC :: [])).1 (by decide)]; decide,
   by rw [(c7_amended_quote_strip (' ' :: 'a' :: 'b' :: [])).2.1 (by decide)]; decide,
   by rw [(c7_amended_quote_strip (' ' :: ' ' :: [])).2.1 (by decide)]; decide⟩

/-- C8: whenever the underlying list query of `FindUser` returns zero rows
and no error, the caller receives the zero `User` value together with the
distinguished `sql.ErrNoRows` error, not an empty-value success. -/
theorem c8_find_single_notfound (db : SB → Except DbErr (List User))
    (fn : Option (SB → SB))
    (h : db ((applyFn fn listUsersBuilder).limit 1) = .ok []) :
    FindUser db fn = (User.zero, some DbErr.noRows) := by
  have h3 : ListUsers db (some fun sb => (applyFn fn sb).limit 1) =
      Except.ok [] := h
  unfold FindUser
  rw [h3]

/-- C8 witness: a handle that returns zero rows makes `FindUser` return
the zero user and the no-rows error. -/
theorem c8_find_single_notfound_witness :
    FindUser (fun _ => .ok []) none = (User.zero, some DbErr.noRows) :=
  c8_find_single_notfound (fun _ => .ok []) none rfl

/-- C9: a per-call invocation of the list entry point with any
customization function leaves the shared package-level base skeleton
unchanged: the call refines a copy (`applyFn fn` of the base), and a
second call starting from the state left by the first observes the same
base value and derives its skeleton from it alone. -/
theorem c9_base_skeleton_frame (st : TutorialState)
    (fn1 fn2 : Option (SB → SB)) :
    (ListUsersStateful st fn1).1 = st ∧
    (ListUsersStateful st fn1).2 = applyFn fn1 st.listUsersBuilder ∧
    (ListUsersStateful (ListUsersStateful st fn1).1 fn2).2 =
      applyFn fn2 st.listUsersBuilder :=
  ⟨rfl, rfl, rfl⟩

/-- C10 counterexample: `Parse` output can have an empty table with a
non-empty column list (`select c from \x0b`: the captured table token is
the vertical tab, which Go's regexp `\s` does not contain but
`strings.TrimSpace` removes), and a non-empty table containing a
whitespace character (`select c from a\x0bb`: the vertical tab is
whitespace by Go's `unicode.IsSpace`). -/
theorem c10_counterexample :
    Parse "select c from \x0b".toList = ([], ["c".toList]) ∧
    ((Parse "select c from a\x0bb".toList).1 ≠ [] ∧
      ∃ c ∈ (Parse "select c from a\x0bb".toList).1, goIsSpace c = true) := by
  decide

/-- C10 (amended): for every input string, the returned table name
contains no character of Go's regexp `\s` class (tab, newline, form feed,
carriage return, space) and no semicolon, and every string in the
returned column list is non-empty. -/
theorem c10_amended_output_invariant (s : List Char) :
    (∀ c ∈ (Parse s).1, reWs c = false ∧ c ≠ ';') ∧
    (∀ col ∈ (Parse s).2, col ≠ []) := by
  unfold Parse
  cases hf : findSelect (stripComments s) with
  | none => simp
  | some ab =>
    obtain ⟨a, b⟩ := ab
    constructor
    · intro c hc
      have hb : c ∈ b := mem_trimSpace_mem (mem_trimSuffixSemi_mem hc)
      have ht := findSelect_chars hf c hb
      unfold isTableChar at ht
      rcases Bool.and_eq_true .. ▸ ht with ⟨h1, h2⟩
      refine ⟨by simpa using h1, ?_⟩
      intro hcc
      rw [hcc] at h2
      simp at h2
    · intro col hcol
      rcases List.mem_filterMap.mp hcol with ⟨tok, -, hpt⟩
      unfold processTok at hpt
      split at hpt
      · simp at hpt
      · rename_i hne
        cases hpt
        exact hne

/-- C10 (amended) witness at a concrete statement and its table
character. -/
theorem c10_amended_output_invariant_witness :
    reWs 't' = false ∧ 't' ≠ ';' :=
  (c10_amended_output_invariant "select a from t".toList).1 't' (by decide)

/-! ## Fidelity checks: the `TestParse` vectors of `builder/parse_test.go`,
evaluated on the embedding -/

/-- Test vector: lowercase simple. -/
theorem parse_test_lowercase_simple :
    Parse "select a,b,c FROM test;".toList =
      ("test".toList, ["a".toList, "b".toList, "c".toList]) := by decide

/-- Test vector: no match. -/
theorem parse_test_no_match :
    Parse "update table set a=1".toList = ([], []) := by decide

/-- Test vector: quoted column names. -/
theorem parse_test_quoted_columns :
    Parse "SELECT `a`, \"b\", 'c' FROM t1;".toList =
      ("t1".toList, ["a".toList, "b".toList, "c".toList]) := by decide

/-- Test vector: leading whitespace. -/
theorem parse_test_leading_whitespace :
    Parse "  \n\tselect  col1 ,  col2  from  my_tab  ".toList =
      ("my_tab".toList, ["col1".toList, "col2".toList]) := by decide

/-- Test vector: mixed case multiline. -/
theorem parse_test_mixed_case_multiline :
    Parse "\n\t\t\t SELECT\n\t\t\t\tid ,\n\t\t\t\t name\n\t\t\t\tFROM\n\t\t\t\t users_table\n\t\t\t\t;\n\t\t\t".toList =
      ("users_table".toList, ["id".toList, "name".toList]) := by decide

/-- Test vector: sqlc generated query with a name comment line and an
inline line comment. -/
theorem parse_test_sqlc_generated :
    Parse "-- name: ListUsers :many\nSELECT id, name, -- comment\nemail, age, created_at, updated_at FROM users\n".toList =
      ("users".toList, ["id".toList, "name".toList, "email".toList,
        "age".toList, "created_at".toList, "updated_at".toList]) := by decide
